import Mathlib

/-!
Verification of the engine host bridge and session orchestration layer of
MineCompanionAI-WebUI (src/core/engine/runtime.py, session.py, manager.py and
src/core/storage/story.py, vision.py) against its natural-language
specification.

The Python code is shallowly embedded:
* Python dict/JSON payloads become the inductive type `JVal`; `d.get(k)`
  becomes `JVal.pyGet` (absent key and stored `None` both yield `.null`, as in
  Python, where both come back as the `None` object), `d.get(k, default)`
  becomes `JVal.pyGetD` (a stored `None` is returned as `.null`, the default is
  used only when the key is absent).
* WASM linear memory becomes `List Nat` (one cell per byte); pointers are `Int`
  because wasmtime returns signed i32 values.  Python's UTF-8 encode/decode pair
  is abstracted by a per-code-point codec (`encodeStr`/`decodeBytes`): encoding
  is total and injective, decoding fails exactly on invalid code points, which
  is all the bridge-level claims depend on (they never inspect byte-level UTF-8
  structure).
* Stateful methods become pure state-passing functions; calls into the module
  runtime and the two persistence stores are recorded in an explicit `Effect`
  trace so that claims about which collaborators are touched are statable.
* Exceptions become `Except String`/`Except RtError` results.
-/

set_option autoImplicit false

namespace MineCompanion

/-- Python/JSON values as exchanged with the module (`orjson` payloads).
Numbers are represented as rationals so that the float literals appearing in
the configuration defaults (0.7, 0.9) are exact. -/
inductive JVal where
  | null : JVal
  | bool : Bool → JVal
  | num : Rat → JVal
  | str : String → JVal
  | arr : List JVal → JVal
  | obj : List (String × JVal) → JVal

/-- First binding of key `k` in an association list (Python dicts have unique
keys, so first-match lookup models dict lookup exactly). -/
def lookupField (k : String) : List (String × JVal) → Option JVal
  | [] => none
  | (k', v) :: rest => if k' = k then some v else lookupField k rest

/-- Python `d.get(k, default)`: the stored value (including a stored `None`,
i.e. `.null`) when the key is present, `default` otherwise.  Source dict
receivers are always dicts; a non-object receiver returns the default. -/
def JVal.pyGetD (v : JVal) (k : String) (d : JVal) : JVal :=
  match v with
  | .obj fs =>
    match lookupField k fs with
    | some x => x
    | none => d
  | _ => d

/-- Python `d.get(k)`: like `pyGetD` with default `None`. -/
def JVal.pyGet (v : JVal) (k : String) : JVal :=
  v.pyGetD k .null

/-- Python `k in d` membership test on a dict. -/
def JVal.hasKey (v : JVal) (k : String) : Bool :=
  match v with
  | .obj fs => (lookupField k fs).isSome
  | _ => false

/-- Python truthiness of a JSON value (`bool(v)`). -/
def pyTruthy : JVal → Bool
  | .null => false
  | .bool b => b
  | .num q => q ≠ 0
  | .str s => s ≠ ""
  | .arr xs => ¬ xs.isEmpty
  | .obj fs => ¬ fs.isEmpty

/-- Python `v is None`. -/
def JVal.isNull : JVal → Bool
  | .null => true
  | _ => false

/-- Python `isinstance(v, dict)`. -/
def JVal.isObj : JVal → Bool
  | .obj _ => true
  | _ => false

/-- Python `v == s` comparison of a value against a string literal. -/
def JVal.strEq (v : JVal) (s : String) : Bool :=
  match v with
  | .str t => t = s
  | _ => false

/-- Truncation of a rational toward zero, Python `int(float)`. -/
def ratTrunc (q : Rat) : Int :=
  if q < 0 then -((-q).floor) else q.floor

/-- Python `int(v)` on the values that occur in tick positions: numbers
truncate toward zero, booleans coerce; anything else raises `TypeError`
(numeric strings never occur in tick positions on the modelled wire contract,
so they are mapped to the raising branch together with the other non-numeric
values). -/
def pyInt : JVal → Except String Int
  | .num q => .ok (ratTrunc q)
  | .bool b => .ok (if b then 1 else 0)
  | _ => .error "TypeError: int() argument must be a number"

end MineCompanion

namespace MineCompanion

/-! ## The memory bridge (src/core/engine/runtime.py) -/

/-- Host-side error taxonomy of the bridge (`MemoryError` raised by the bounds
checks, `UnicodeDecodeError` from `bytes.decode`, the `RuntimeError` raised by
`_unwrap_pair` on a malformed multi-value return, and the `RuntimeError` raised
by `_ensure_handle` on a released handle). -/
inductive RtError where
  | memoryBounds : RtError
  | decodeError : RtError
  | badResultPair : RtError
  | handleReleased : RtError
  deriving DecidableEq, Repr

/-- Valid Unicode scalar values, the code points `str` can hold. -/
def isValidCodePoint (n : Nat) : Bool :=
  n < 0xd800 || (0xdfff < n && n < 0x110000)

/-- Abstract codec, encoding side: one memory cell per code point
(abstraction of `str.encode("utf-8")`, see the file header). -/
def encodeStr (s : String) : List Nat :=
  s.data.map Char.toNat

/-- Abstract codec, decoding side: fails exactly on cells that are not valid
code points (abstraction of `bytes.decode("utf-8")`, which fails exactly on
byte sequences that are not valid UTF-8). -/
def decodeBytes (bs : List Nat) : Except RtError String :=
  if bs.all isValidCodePoint then
    .ok (String.mk (bs.map Char.ofNat))
  else
    .error .decodeError

/-- Embeds `WASMRuntime._read_utf8`: returns `""` for a zero length with no further
checks, otherwise bounds-checks `ptr` against the current memory size and only
then reads and decodes the requested slice. -/
def read_utf8 (mem : List Nat) (ptr : Int) (len : Nat) : Except RtError String :=
  if len = 0 then
    .ok ""
  else if ptr < 0 ∨ ptr + (len : Int) > (mem.length : Int) then
    .error .memoryBounds
  else
    decodeBytes ((mem.drop ptr.toNat).take len)

/-- Embeds `WASMRuntime._write_utf8`: encodes the text, allocates via the instance's
`malloc` export, and when the encoding is non-empty bounds-checks the returned
pointer before copying the bytes in.  Returns the (possibly updated) memory
together with the `(pointer, length)` pair or the raised error; on an error the
memory is returned untouched. -/
def write_utf8 (mem : List Nat) (malloc : Nat → Int) (text : String) :
    List Nat × Except RtError (Int × Nat) :=
  let encoded := encodeStr text
  let length := encoded.length
  let ptr := malloc length
  if length ≠ 0 then
    if ptr < 0 ∨ ptr + (length : Int) > (mem.length : Int) then
      (mem, .error .memoryBounds)
    else
      (mem.take ptr.toNat ++ encoded ++ mem.drop (ptr.toNat + length), .ok (ptr, length))
  else
    (mem, .ok (ptr, length))

/-- Embeds `WASMRuntime._unwrap_pair`: a two-element multi-value return is interpreted
as `(pointer, length)`; anything else raises. -/
def unwrap_pair (raw : List Int) : Except RtError (Int × Int) :=
  match raw with
  | [a, b] => .ok (a, b)
  | _ => .error .badResultPair

/-- Python `str.splitlines()` followed by the `if line` filter (the wire
contract is newline-delimited, so only "\n" separators occur). -/
def splitNonEmptyLines (s : String) : List String :=
  (s.splitOn "\n").filter (fun line => line ≠ "")

/-- One live (or released) module instance as owned by `EngineHandle`:
its linear memory, the opaque instance pointer (0 is the released sentinel),
and instrumentation recording every `__wbindgen_free` call (with its
`(pointer, length)` arguments) and the number of `__wbg_engine_free` (drop)
calls made on it. -/
structure EngineHandleM where
  mem : List Nat
  engine_ptr : Int
  freeCalls : List (Int × Nat)
  dropCalls : Nat
  deriving Repr

/-- Embeds `EngineHandle.close`: calls the drop export iff the instance pointer is
still non-zero, then nulls the pointer; a second call finds the sentinel and
does nothing. -/
def EngineHandleM.close (h : EngineHandleM) : EngineHandleM :=
  if h.engine_ptr ≠ 0 then
    { h with engine_ptr := 0, dropCalls := h.dropCalls + 1 }
  else
    h

/-- Embeds `WASMRuntime._consume_lines`: reads the result buffer and, by the
`try/finally`, calls the instance's `free` export on `(ptr, len)` on every exit
path — both when the read/decode succeeds and when it raises. -/
def consume_lines (h : EngineHandleM) (ptr : Int) (len : Nat) :
    EngineHandleM × Except RtError (List String) :=
  let r := read_utf8 h.mem ptr len
  let h' : EngineHandleM := { h with freeCalls := h.freeCalls ++ [(ptr, len)] }
  match r with
  | .ok output => (h', .ok (splitNonEmptyLines output))
  | .error e => (h', .error e)

/-- The observable behaviour of one call to an exported engine function:
the linear memory after the call (the module may mutate or grow it) and the
raw multi-value return. -/
structure ModuleCall where
  newMem : List Nat
  raw : List Int

/-- Embeds `WASMRuntime.process`: checks the handle is live, writes the input string
into module memory, calls the `engine_process` export (modelled by `engineFn`,
a function of the memory and the input buffer), interprets the two-element
result as `(pointer, length)` and consumes it via `consume_lines`.  Result
lengths produced by wasm-bindgen are u32 values, hence the `toNat`. -/
def runtimeProcess (h : EngineHandleM) (malloc : Nat → Int)
    (engineFn : List Nat → Int → Nat → ModuleCall) (input : String) :
    EngineHandleM × Except RtError (List String) :=
  if h.engine_ptr = 0 then
    (h, .error .handleReleased)
  else
    match write_utf8 h.mem malloc input with
    | (mem1, .error e) => ({ h with mem := mem1 }, .error e)
    | (mem1, .ok (iptr, ilen)) =>
      let call := engineFn mem1 iptr ilen
      match unwrap_pair call.raw with
      | .error e => ({ h with mem := call.newMem }, .error e)
      | .ok (rptr, rlen) => consume_lines { h with mem := call.newMem } rptr rlen.toNat

/-- Embeds `WASMRuntime.tick`: same shape as `process` but the export takes the
elapsed milliseconds instead of an input buffer. -/
def runtimeTick (h : EngineHandleM) (tickFn : List Nat → Int → ModuleCall)
    (elapsed_ms : Int) : EngineHandleM × Except RtError (List String) :=
  if h.engine_ptr = 0 then
    (h, .error .handleReleased)
  else
    let call := tickFn h.mem elapsed_ms
    match unwrap_pair call.raw with
    | .error e => ({ h with mem := call.newMem }, .error e)
    | .ok (rptr, rlen) => consume_lines { h with mem := call.newMem } rptr rlen.toNat

end MineCompanion

namespace MineCompanion

/-! ## Persistence stores (src/core/storage/story.py, vision.py) -/

/-- One row of the `story_nodes` table as relevant to retrieval: the indexed
`timestamp` column and the stored `node_json` payload. -/
structure StoryRowM where
  row_id : String
  row_timestamp : Int
  node : JVal

/-- The `story_nodes` table in insertion order, each row tagged with its
`session_id` column. -/
structure StoryStoreM where
  rows : List (String × StoryRowM)

/-- Insert a row into a timestamp-descending list, keeping it descending. -/
def insertDescRow (r : StoryRowM) : List StoryRowM → List StoryRowM
  | [] => [r]
  | x :: xs =>
    if x.row_timestamp ≤ r.row_timestamp then r :: x :: xs
    else x :: insertDescRow r xs

/-- SQLite `ORDER BY timestamp DESC` (insertion sort; the relative order of
equal timestamps is unspecified by SQLite, and no claim depends on it). -/
def sortRowsDesc : List StoryRowM → List StoryRowM
  | [] => []
  | x :: xs => insertDescRow x (sortRowsDesc xs)

/-- The rows selected by `StoryStore.load_history`: the session's rows ordered
by timestamp descending, limited. -/
def loadHistoryRows (ss : StoryStoreM) (session_id : String) (limit : Nat) :
    List StoryRowM :=
  (sortRowsDesc ((ss.rows.filter (fun p => p.1 = session_id)).map Prod.snd)).take limit

/-- Embeds `StoryStore.load_history(session_id, limit=100)`: the decoded `node_json`
payloads of the selected rows. -/
def StoryStoreM.load_history (ss : StoryStoreM) (session_id : String)
    (limit : Nat := 100) : List JVal :=
  (loadHistoryRows ss session_id limit).map (fun r => r.node)

/-- Embeds `StoryStore.append`: inserts one row (the extraction of the `id`,
`timestamp`, `kind`, `summary` columns from the node dict is done by the
caller of this model-level function). -/
def StoryStoreM.appendRow (ss : StoryStoreM) (session_id : String) (r : StoryRowM) :
    StoryStoreM :=
  ⟨ss.rows ++ [(session_id, r)]⟩

/-- The `vision_snapshots` table: at most one `(snapshot_json, tick)` row per
`session_id` (it is the primary key). -/
structure VisionStoreM where
  entries : List (String × (JVal × Int))

/-- Generic first-match association-list lookup (dict/primary-key lookup). -/
def assocLookup {α : Type} (k : String) : List (String × α) → Option α
  | [] => none
  | (k', v) :: rest => if k' = k then some v else assocLookup k rest

/-- Generic association-list upsert: replace the first binding of `k`, append
if absent (Python dict assignment / SQLite UPSERT on the primary key). -/
def assocUpdate {α : Type} (k : String) (v : α) : List (String × α) → List (String × α)
  | [] => [(k, v)]
  | (k', v') :: rest =>
    if k' = k then (k, v) :: rest else (k', v') :: assocUpdate k v rest

/-- Generic association-list removal of every binding of `k`
(Python `dict.pop`). -/
def assocRemove {α : Type} (k : String) : List (String × α) → List (String × α)
  | [] => []
  | (k', v') :: rest =>
    if k' = k then assocRemove k rest else (k', v') :: assocRemove k rest

/-- Embeds `VisionStore.load`: the stored snapshot for the session, if any. -/
def VisionStoreM.load (vs : VisionStoreM) (session_id : String) : Option JVal :=
  (assocLookup session_id vs.entries).map (fun e => e.1)

/-- Embeds `VisionStore.save`: last-write-wins upsert keyed by session id. -/
def VisionStoreM.save (vs : VisionStoreM) (session_id : String) (snapshot : JVal)
    (tick : Int) : VisionStoreM :=
  ⟨assocUpdate session_id (snapshot, tick) vs.entries⟩

end MineCompanion

namespace MineCompanion

/-! ## Payload normalization (src/core/engine/session.py, module level) -/

/-- Embeds `_normalize_character_card`. -/
def normalize_character_card (card : JVal) : JVal :=
  if card.hasKey "meta" && card.hasKey "content" then card
  else
    let meta0 := card.pyGetD "meta" (.obj [])
    let meta :=
      if pyTruthy meta0 then meta0
      else
        JVal.obj [("version", .str "1.0"),
                  ("name", card.pyGetD "name" (.str "Unknown")),
                  ("id", card.pyGet "id"),
                  ("author", card.pyGet "author"),
                  ("tags", card.pyGetD "tags" (.arr []))]
    JVal.obj [("meta", meta), ("content", card.pyGetD "content" card)]

/-- The default sampling parameters of `_normalize_config`. -/
def defaultParams : JVal :=
  .obj [("temperature", .num (7 / 10)), ("top_p", .num (9 / 10)),
        ("max_tokens", .num 256)]

/-- Embeds `_normalize_config`. -/
def normalize_config (config : JVal) : JVal :=
  .obj [("llm_model", config.pyGetD "llm_model" (.str "gpt-4o-mini")),
        ("enable_kv_cache", config.pyGetD "enable_kv_cache" (.bool true)),
        ("params", config.pyGetD "params" defaultParams),
        ("emit_vision_snapshot", config.pyGetD "emit_vision_snapshot" (.bool true))]

/-- The default environment block of `_normalize_vision`. -/
def defaultEnvironment : JVal :=
  .obj [("time_of_day", .num 6000), ("weather", .str "clear"),
        ("biome", .str "minecraft:plains")]

/-- Embeds `_normalize_vision` (its `Optional` argument is `.null` for `None`; a
falsy argument is replaced by the empty dict). -/
def normalize_vision (vision : JVal) : JVal :=
  let v := if pyTruthy vision then vision else .obj []
  .obj [("entities", v.pyGetD "entities" (.arr [])),
        ("blocks", v.pyGetD "blocks" (.arr [])),
        ("environment", v.pyGetD "environment" defaultEnvironment),
        ("tick", v.pyGetD "tick" (.num 0))]

/-- Embeds `_normalize_world_diff`; `nowMs` is the wall clock `int(time.time()*1000)`
used as the `timestamp_ms` default. -/
def normalize_world_diff (diff : JVal) (nowMs : Int) : JVal :=
  .obj [("tick", diff.pyGetD "tick" (.num 0)),
        ("timestamp_ms", diff.pyGetD "timestamp_ms" (.num nowMs)),
        ("blocks", diff.pyGetD "blocks" (.arr [])),
        ("entities", diff.pyGetD "entities" (.arr [])),
        ("player_actions", diff.pyGetD "player_actions" (.arr [])),
        ("vision", normalize_vision (diff.pyGet "vision")),
        ("environment", diff.pyGet "environment")]

/-- Embeds `_normalize_story_event`: a dict-valued `kind` collapses to its first key
("unknown" for the empty dict). -/
def normalize_story_event (event : JVal) : JVal :=
  let kind0 := event.pyGetD "kind" (.str "unknown")
  let kind :=
    match kind0 with
    | .obj fs =>
      JVal.str (match fs with
                | [] => "unknown"
                | (k, _) :: _ => k)
    | k => k
  .obj [("id", event.pyGetD "id" (.str "")),
        ("timestamp", event.pyGetD "timestamp" (.num 0)),
        ("kind", kind),
        ("summary", event.pyGetD "summary" (.str ""))]

end MineCompanion

namespace MineCompanion

/-! ## Engine sessions (src/core/engine/session.py) -/

/-- One call a session makes into its collaborators, in program order:
`VisionStore.load`, `StoryStore.load_history`, `WASMRuntime.create_engine`,
`WASMRuntime.process` (with the serialized payload), `VisionStore.save`,
`StoryStore.append`. -/
inductive Effect where
  | visionLoad (session_id : String)
  | storyLoadHistory (session_id : String)
  | createEngine
  | modProcess (payload : JVal)
  | visionSave (session_id : String) (snapshot : JVal) (tick : Int)
  | storyAppend (session_id : String) (event : JVal)

def Effect.isVisionSave : Effect → Bool
  | .visionSave _ _ _ => true
  | _ => false

def Effect.isStoryAppend : Effect → Bool
  | .storyAppend _ _ => true
  | _ => false

/-- The runtime as the session sees it, at the JSON level: `create_engine` may
trap while instantiating the module, `procCall` is one `WASMRuntime.process`
round trip — the session serializes the payload with orjson, the runtime
returns JSON lines, the session parses each non-blank line; the orjson
round-trip is abstracted away and a module trap is the error case. -/
structure SessionRuntimeM where
  create_engine : JVal → Except String EngineHandleM
  procCall : JVal → Except String (List JVal)

/-- Embeds `EngineSession` state: id fields, the optional handle, the `initialized`
flag and the `last_active` timestamp (an abstract instant). -/
structure EngineSessionM where
  session_id : String
  character_id : String
  handle : Option EngineHandleM := none
  initialized : Bool := false
  last_active : Int

/-- The `not_initialized` error event returned (not raised) by the guards of
`on_world_diff` and `on_player_message`. -/
def notInitializedEvent : JVal :=
  .obj [("type", .str "error"), ("code", .str "not_initialized"),
        ("message", .str "会话尚未初始化")]

/-- The init event assembled by `EngineSession.initialize`, bundling the
normalized character card and config, the normalized persisted snapshot and
the persisted history exactly as `load_history` returned it. -/
def mkInitPayload (session_id : String) (character_card config vision_snapshot : JVal)
    (story_history : List JVal) : JVal :=
  .obj [("type", .str "init"),
        ("session_id", .str session_id),
        ("character_card", normalize_character_card character_card),
        ("config", normalize_config config),
        ("vision", normalize_vision vision_snapshot),
        ("story_history", .arr story_history)]

/-- Embeds `EngineSession.initialize`: loads the snapshot (`or {}`) and history from
the stores, creates the module instance (assigning `self.handle` before the
init round trip, as the source does), sends the init event, and only on
success sets `initialized` and refreshes `last_active`.  Returns the updated
session, the parsed outputs or the propagated exception, and the effect
trace. -/
def initSession (s : EngineSessionM) (rt : SessionRuntimeM) (vs : VisionStoreM)
    (ss : StoryStoreM) (character_card config : JVal) (now : Int) :
    EngineSessionM × Except String (List JVal) × List Effect :=
  let loaded := (VisionStoreM.load vs s.session_id).getD .null
  let vision_snapshot := if pyTruthy loaded then loaded else .obj []
  let story_history := StoryStoreM.load_history ss s.session_id
  let effs0 := [Effect.visionLoad s.session_id, Effect.storyLoadHistory s.session_id]
  match rt.create_engine config with
  | .error e => (s, .error e, effs0 ++ [.createEngine])
  | .ok h =>
    let payload := mkInitPayload s.session_id character_card config vision_snapshot story_history
    match rt.procCall payload with
    | .error e =>
      ({ s with handle := some h }, .error e, effs0 ++ [.createEngine, .modProcess payload])
    | .ok outs =>
      ({ s with handle := some h, initialized := true, last_active := now }, .ok outs,
       effs0 ++ [.createEngine, .modProcess payload])

/-- The vision-upsert step of `on_world_diff`: when the diff carried a
`vision` value, one `VisionStore.save` with the tick fallback chain
`diff["tick"]`, then `vision["tick"]` (only when the vision value is a dict),
then `0`; `int(tick or 0)` can raise `TypeError` on a non-numeric tick. -/
def visionSaveEffects (session_id : String) (diff : JVal) :
    Except String (List Effect) :=
  let vision_snapshot := diff.pyGet "vision"
  let tick_value := diff.pyGet "tick"
  if vision_snapshot.isNull then .ok []
  else
    let tick :=
      if tick_value.isNull && vision_snapshot.isObj then
        vision_snapshot.pyGetD "tick" (.num 0)
      else tick_value
    match pyInt (if pyTruthy tick then tick else .num 0) with
    | .error e => .error e
    | .ok t => .ok [Effect.visionSave session_id vision_snapshot t]

/-- The output loop of `on_world_diff`: story events are appended (normalized)
to the StoryStore, only `mod_action` and `utterance` outputs are collected,
both in emission order. -/
def collectOutputs (session_id : String) : List JVal → List JVal × List Effect
  | [] => ([], [])
  | output :: rest =>
    let t := output.pyGet "type"
    let storyE :=
      if t.strEq "story_event" then
        [Effect.storyAppend session_id (normalize_story_event output)]
      else []
    let keep :=
      if t.strEq "mod_action" || t.strEq "utterance" then [output] else []
    let (rs, es) := collectOutputs session_id rest
    (keep ++ rs, storyE ++ es)

/-- Embeds `EngineSession.on_world_diff`: fails fast with the `not_initialized` event
(touching nothing) when not ready; otherwise refreshes `last_active`, sends
the `world_change` event, upserts the vision snapshot when one was carried,
persists story events and returns only `mod_action`/`utterance` outputs.
`now` is the wall clock for `last_active`, `nowMs` the millisecond clock used
by `_normalize_world_diff`. -/
def EngineSessionM.on_world_diff (s : EngineSessionM) (rt : SessionRuntimeM)
    (diff : JVal) (now nowMs : Int) :
    EngineSessionM × Except String (List JVal) × List Effect :=
  if !s.initialized || s.handle.isNone then
    (s, .ok [notInitializedEvent], [])
  else
    let s' := { s with last_active := now }
    let payload := JVal.obj [("type", .str "event"), ("kind", .str "world_change"),
                             ("data", normalize_world_diff diff nowMs)]
    match rt.procCall payload with
    | .error e => (s', .error e, [.modProcess payload])
    | .ok parsed =>
      match visionSaveEffects s.session_id diff with
      | .error e => (s', .error e, [.modProcess payload])
      | .ok vEffs =>
        let (results, sEffs) := collectOutputs s.session_id parsed
        (s', .ok results, [.modProcess payload] ++ vEffs ++ sEffs)

/-- Embeds `EngineSession.on_player_message`: same guard; wraps the player text and
returns the module's parsed output list unfiltered. -/
def EngineSessionM.on_player_message (s : EngineSessionM) (rt : SessionRuntimeM)
    (player_id text : String) (now : Int) :
    EngineSessionM × Except String (List JVal) × List Effect :=
  if !s.initialized || s.handle.isNone then
    (s, .ok [notInitializedEvent], [])
  else
    let s' := { s with last_active := now }
    let payload := JVal.obj [("type", .str "player_message"),
                             ("player_id", .str player_id), ("text", .str text)]
    match rt.procCall payload with
    | .error e => (s', .error e, [.modProcess payload])
    | .ok parsed => (s', .ok parsed, [.modProcess payload])

/-- Embeds `EngineSession.close`: closes the handle if present and clears the
reference; the second component counts the drop calls this close performed. -/
def EngineSessionM.close (s : EngineSessionM) : EngineSessionM × Nat :=
  match s.handle with
  | some h => ({ s with handle := none }, (EngineHandleM.close h).dropCalls - h.dropCalls)
  | none => (s, 0)

end MineCompanion

namespace MineCompanion

/-! ## The session registry (src/core/engine/manager.py) -/

/-- Embeds `EngineSessionManager`: the `_sessions` dict in insertion order. -/
structure ManagerM where
  sessions : List (String × EngineSessionM)

/-- The fresh `EngineSession(session_id=..., character_id=...)` constructed by
`get_or_create`; the dataclass default `last_active` is the construction
instant. -/
def freshSession (session_id character_id : String) (now : Int) : EngineSessionM :=
  { session_id := session_id, character_id := character_id, handle := none,
    initialized := false, last_active := now }

/-- Embeds `EngineSessionManager.get_or_create`: returns the registered session when
it exists and is initialized; otherwise constructs a fresh session, calls
`initialize` on it and registers it only when that succeeded (an exception
propagates and leaves the registry untouched).  The boolean records whether
`initialize` was invoked. -/
def ManagerM.get_or_create (m : ManagerM) (rt : SessionRuntimeM) (vs : VisionStoreM)
    (ss : StoryStoreM) (session_id character_id : String) (character_card config : JVal)
    (now : Int) : ManagerM × Except String (EngineSessionM × Bool) :=
  let create : ManagerM × Except String (EngineSessionM × Bool) :=
    match initSession (freshSession session_id character_id now) rt vs ss
        character_card config now with
    | (_, .error e, _) => (m, .error e)
    | (s', .ok _, _) => (⟨assocUpdate session_id s' m.sessions⟩, .ok (s', true))
  match assocLookup session_id m.sessions with
  | some session =>
    if session.initialized then (m, .ok (session, false)) else create
  | none => create

/-- Embeds `EngineSessionManager.get`: pure lookup. -/
def ManagerM.get (m : ManagerM) (session_id : String) : Option EngineSessionM :=
  assocLookup session_id m.sessions

/-- One iteration of the removal loop of `cleanup_idle`:
`session = self._sessions.pop(session_id, None); if session is not None:
session.close()`. -/
def popStep (acc : ManagerM × List EngineSessionM) (sid : String) :
    ManagerM × List EngineSessionM :=
  match assocLookup sid acc.1.sessions with
  | some session =>
    (⟨assocRemove sid acc.1.sessions⟩, acc.2 ++ [(EngineSessionM.close session).1])
  | none => acc

/-- Embeds `EngineSessionManager.cleanup_idle`: collects the ids whose `last_active`
is strictly older than `now - timeout` in one scan, then pops each collected id
and closes the popped session.  Returns the new registry and the closed
sessions. -/
def ManagerM.cleanup_idle (m : ManagerM) (now timeout : Int) :
    ManagerM × List EngineSessionM :=
  let staleIds :=
    (m.sessions.filter (fun p => decide (timeout < now - p.2.last_active))).map Prod.fst
  staleIds.foldl popStep (m, [])

/-- Embeds `EngineSessionManager.close_all`: closes every session and clears the
registry. -/
def ManagerM.close_all (m : ManagerM) : ManagerM × List EngineSessionM :=
  (⟨[]⟩, m.sessions.map (fun p => (EngineSessionM.close p.2).1))

end MineCompanion

namespace MineCompanion

/-! ## Shared concrete fixtures for witnesses -/

/-- A live handle with one memory cell holding an invalid code point (so a
read of it fails to decode). -/
def badMemHandle : EngineHandleM := ⟨[0xd800], 1, [], 0⟩

/-- A runtime whose module instantiates fine and answers every call with no
output lines. -/
def rtOk : SessionRuntimeM :=
  ⟨fun _ => .ok ⟨[], 1, [], 0⟩, fun _ => .ok []⟩

/-- An empty vision store. -/
def vs0 : VisionStoreM := ⟨[]⟩

/-- An empty story store. -/
def ss0 : StoryStoreM := ⟨[]⟩

/-- An uninitialized session. -/
def sessU : EngineSessionM :=
  { session_id := "S", character_id := "C", handle := none,
    initialized := false, last_active := 0 }

/-- An initialized session with a live handle. -/
def sessR : EngineSessionM :=
  { session_id := "S", character_id := "C", handle := some ⟨[], 1, [], 0⟩,
    initialized := true, last_active := 0 }

/-- The session produced by the concrete first `get_or_create` of the C6
witness. -/
def sessS5 : EngineSessionM :=
  { session_id := "S", character_id := "C", handle := some ⟨[], 1, [], 0⟩,
    initialized := true, last_active := 5 }

/-- A second registered session for the C7 witness, recently active. -/
def sessT : EngineSessionM :=
  { session_id := "T", character_id := "D", handle := none,
    initialized := true, last_active := 100 }

/-- Two story rows for the C8 scenario, timestamps 1 and 2. -/
def rowA : StoryRowM := ⟨"e1", 1, .obj [("id", .str "e1"), ("timestamp", .num 1)]⟩

/-- Companion row with the later timestamp. -/
def rowB : StoryRowM := ⟨"e2", 2, .obj [("id", .str "e2"), ("timestamp", .num 2)]⟩

/-- A story store holding the two rows for session "S" in insertion order. -/
def ss2 : StoryStoreM := ⟨[("S", rowA), ("S", rowB)]⟩

/-- Spec-side definition of the upsert tick, following the specification's
words: "keyed by session id and the delta's `tick` (falling back to the vision
block's own tick, then 0)" — stated for integer-valued ticks, the only ones on
the wire contract. -/
def specTickFallback (diff : JVal) : Int :=
  match diff.pyGet "tick" with
  | .num q => ratTrunc q
  | _ =>
    match (diff.pyGet "vision").pyGet "tick" with
    | .num q => ratTrunc q
    | _ => 0

/-- The registry invariant: every registered session is initialized. -/
def RegInv (m : ManagerM) : Prop :=
  ∀ p ∈ m.sessions, p.2.initialized = true

end MineCompanion

namespace MineCompanion

/-! ## C2 — release is idempotent -/

/-- C2: releasing a live EngineHandle calls the drop export exactly once and
nulls the instance pointer; a second release of the handle is a no-op, and
after an EngineSession.close every further close performs no drop call (the
first session close performs exactly one drop when the owned handle is
live). -/
theorem release_idempotent (h : EngineHandleM) (s : EngineSessionM)
    (hlive : h.engine_ptr ≠ 0) :
    (EngineHandleM.close h).dropCalls = h.dropCalls + 1 ∧
    (EngineHandleM.close h).engine_ptr = 0 ∧
    EngineHandleM.close (EngineHandleM.close h) = EngineHandleM.close h ∧
    (s.handle = some h →
      EngineSessionM.close s = ({ s with handle := none }, 1)) ∧
    EngineSessionM.close (EngineSessionM.close s).1 = ((EngineSessionM.close s).1, 0) := by
  refine ⟨?_, ?_, ?_, ?_, ?_⟩
  · simp [EngineHandleM.close, hlive]
  · simp [EngineHandleM.close, hlive]
  · simp [EngineHandleM.close, hlive]
  · intro hs
    simp [EngineSessionM.close, hs, EngineHandleM.close, hlive]
  · cases hh : s.handle <;> simp [EngineSessionM.close, hh]

/-- Witness for C2 at a concrete live handle and session. -/
theorem release_idempotent_witness :
    ((⟨[], 3, [], 0⟩ : EngineHandleM).engine_ptr ≠ 0) ∧
    ((EngineHandleM.close ⟨[], 3, [], 0⟩).dropCalls = 0 + 1 ∧
     (EngineHandleM.close ⟨[], 3, [], 0⟩).engine_ptr = 0 ∧
     EngineHandleM.close (EngineHandleM.close ⟨[], 3, [], 0⟩) =
       EngineHandleM.close ⟨[], 3, [], 0⟩ ∧
     (sessR.handle = some ⟨[], 3, [], 0⟩ →
       EngineSessionM.close sessR = ({ sessR with handle := none }, 1)) ∧
     EngineSessionM.close (EngineSessionM.close sessR).1 =
       ((EngineSessionM.close sessR).1, 0)) :=
  ⟨by decide, release_idempotent ⟨[], 3, [], 0⟩ sessR (by decide)⟩

end MineCompanion

namespace MineCompanion

/-! ## C4 — not-initialized guard -/

/-- C4: a session that is not initialized (or has no handle) answers both
`on_world_diff` and `on_player_message` with exactly the single
`not_initialized` error event, as a normal return value, with an empty effect
trace — no module invocation and no store access — and the event indeed has
type "error" and code "not_initialized". -/
theorem uninitialized_session_returns_error_event (s : EngineSessionM)
    (rt : SessionRuntimeM) (diff : JVal) (player_id text : String) (now nowMs : Int)
    (hguard : s.initialized = false ∨ s.handle = none) :
    EngineSessionM.on_world_diff s rt diff now nowMs = (s, .ok [notInitializedEvent], []) ∧
    EngineSessionM.on_player_message s rt player_id text now =
      (s, .ok [notInitializedEvent], []) ∧
    notInitializedEvent.pyGet "type" = .str "error" ∧
    notInitializedEvent.pyGet "code" = .str "not_initialized" := by
  have hcond : (!s.initialized || s.handle.isNone) = true := by
    rcases hguard with h | h
    · simp [h]
    · simp [h]
  refine ⟨?_, ?_, rfl, rfl⟩
  · simp [EngineSessionM.on_world_diff, hcond]
  · simp [EngineSessionM.on_player_message, hcond]

/-- Witness for C4 at a concrete uninitialized session. -/
theorem uninitialized_session_returns_error_event_witness :
    (sessU.initialized = false ∨ sessU.handle = none) ∧
    (EngineSessionM.on_world_diff sessU rtOk (.obj []) 1 2 =
       (sessU, .ok [notInitializedEvent], []) ∧
     EngineSessionM.on_player_message sessU rtOk "p1" "hi" 1 =
       (sessU, .ok [notInitializedEvent], []) ∧
     notInitializedEvent.pyGet "type" = .str "error" ∧
     notInitializedEvent.pyGet "code" = .str "not_initialized") :=
  ⟨Or.inl rfl,
   uninitialized_session_returns_error_event sessU rtOk (.obj []) "p1" "hi" 1 2
     (Or.inl rfl)⟩

end MineCompanion

namespace MineCompanion

/-! ## C3 — bounds checking -/

/-- C3 counterexample: a zero-length read with a negative pointer is an
out-of-bounds request by the claim's wording (the pointer is not
non-negative), yet `_read_utf8` returns the empty string without performing
any check and without raising a memory-bounds error, because the
`length == 0` early return precedes the bounds check. -/
theorem bounds_check_skipped_for_zero_length :
    read_utf8 [5] (-1) 0 = .ok "" ∧ ((-1 : Int) < 0) :=
  ⟨rfl, by decide⟩

/-- C3 amended: for every read and write of nonzero length the bridge checks
pointer non-negativity and `ptr + len ≤ memory size` before touching raw
memory, and an out-of-bounds request fails with the memory-bounds error
without reading or writing any byte (the write returns the memory unchanged);
zero-length reads return `""` and zero-length writes return `(malloc 0, 0)`
without consulting the bounds and without touching memory. -/
theorem bounds_checked_nonzero_accesses :
    (∀ (mem : List Nat) (ptr : Int) (len : Nat), len ≠ 0 →
      (ptr < 0 ∨ ptr + (len : Int) > (mem.length : Int)) →
      read_utf8 mem ptr len = .error .memoryBounds) ∧
    (∀ (mem : List Nat) (malloc : Nat → Int) (text : String),
      encodeStr text ≠ [] →
      (malloc (encodeStr text).length < 0 ∨
        malloc (encodeStr text).length + ((encodeStr text).length : Int) >
          (mem.length : Int)) →
      write_utf8 mem malloc text = (mem, .error .memoryBounds)) ∧
    (∀ (mem : List Nat) (ptr : Int), read_utf8 mem ptr 0 = .ok "") ∧
    (∀ (mem : List Nat) (malloc : Nat → Int) (text : String),
      encodeStr text = [] →
      write_utf8 mem malloc text = (mem, .ok (malloc 0, 0))) := by
  refine ⟨?_, ?_, ?_, ?_⟩
  · intro mem ptr len hlen hoob
    simp [read_utf8, hlen, hoob]
  · intro mem malloc text hne hoob
    have hlen : (encodeStr text).length ≠ 0 := by
      simpa [List.length_eq_zero] using hne
    simp only [write_utf8]
    simp [hlen, hoob]
  · intro mem ptr
    simp [read_utf8]
  · intro mem malloc text h0
    simp [write_utf8, h0]

/-- Witness for C3 amended at concrete out-of-bounds and zero-length
requests. -/
theorem bounds_checked_nonzero_accesses_witness :
    ((1 : Nat) ≠ 0 ∧ ((5 : Int) < 0 ∨ (5 : Int) + (1 : Int) > ((3 : Nat) : Int)) ∧
      encodeStr "a" ≠ [] ∧
      ((fun _ => (5 : Int)) (encodeStr "a").length < 0 ∨
        (fun _ => (5 : Int)) (encodeStr "a").length + ((encodeStr "a").length : Int) >
          (([0, 0, 0] : List Nat).length : Int)) ∧
      encodeStr "" = []) ∧
    (read_utf8 [0, 0, 0] 5 1 = .error .memoryBounds ∧
     write_utf8 [0, 0, 0] (fun _ => (5 : Int)) "a" = ([0, 0, 0], .error .memoryBounds) ∧
     read_utf8 [0, 0, 0] (-7) 0 = .ok "" ∧
     write_utf8 [0, 0, 0] (fun _ => (5 : Int)) "" = ([0, 0, 0], .ok (5, 0))) := by
  have h1 : (1 : Nat) ≠ 0 := by decide
  have h2 : ((5 : Int) < 0 ∨ (5 : Int) + (1 : Int) > ((3 : Nat) : Int)) := by decide
  have h3 : encodeStr "a" ≠ [] := by decide
  have h4 : ((fun _ => (5 : Int)) (encodeStr "a").length < 0 ∨
      (fun _ => (5 : Int)) (encodeStr "a").length + ((encodeStr "a").length : Int) >
        (([0, 0, 0] : List Nat).length : Int)) := by decide
  have h5 : encodeStr "" = [] := by decide
  refine ⟨⟨h1, h2, h3, h4, h5⟩, ?_, ?_, ?_, ?_⟩
  · exact bounds_checked_nonzero_accesses.1 [0, 0, 0] 5 1 h1 h2
  · exact bounds_checked_nonzero_accesses.2.1 [0, 0, 0] (fun _ => (5 : Int)) "a" h3 h4
  · exact bounds_checked_nonzero_accesses.2.2.1 [0, 0, 0] (-7)
  · exact bounds_checked_nonzero_accesses.2.2.2 [0, 0, 0] (fun _ => (5 : Int)) "" h5

end MineCompanion

namespace MineCompanion

/-! ## C1 — the result buffer is freed exactly once -/

/-- C1: whenever a `process` or `tick` invocation gets past the export call
with a well-formed `(pointer, length)` result pair, the instance's free export
is called exactly once on that pair — the free-call trace grows by exactly
that one entry — on every exit path of the result consumption, whether the
UTF-8 decode of the result buffer succeeds or fails. -/
theorem process_frees_result_exactly_once (h : EngineHandleM) (malloc : Nat → Int)
    (engineFn : List Nat → Int → Nat → ModuleCall) (tickFn : List Nat → Int → ModuleCall)
    (input : String) (elapsed_ms : Int) (hlive : h.engine_ptr ≠ 0) :
    (∀ (mem1 : List Nat) (iptr : Int) (ilen : Nat) (p l : Int),
      write_utf8 h.mem malloc input = (mem1, .ok (iptr, ilen)) →
      (engineFn mem1 iptr ilen).raw = [p, l] →
      (runtimeProcess h malloc engineFn input).1.freeCalls =
        h.freeCalls ++ [(p, l.toNat)]) ∧
    (∀ (p l : Int),
      (tickFn h.mem elapsed_ms).raw = [p, l] →
      (runtimeTick h tickFn elapsed_ms).1.freeCalls = h.freeCalls ++ [(p, l.toNat)]) := by
  constructor
  · intro mem1 iptr ilen p l hw hraw
    simp only [runtimeProcess, if_neg hlive, hw]
    simp only [hraw, unwrap_pair, consume_lines]
    cases read_utf8 (engineFn mem1 iptr ilen).newMem p l.toNat <;> simp
  · intro p l hraw
    simp only [runtimeTick, if_neg hlive]
    simp only [hraw, unwrap_pair, consume_lines]
    cases read_utf8 (tickFn h.mem elapsed_ms).newMem p l.toNat <;> simp

/-- Witness for C1: a concrete invocation whose result buffer holds an invalid
code point, so decoding fails, yet the free trace records exactly the returned
pair. -/
theorem process_frees_result_exactly_once_witness :
    (badMemHandle.engine_ptr ≠ 0 ∧
      write_utf8 badMemHandle.mem (fun _ => 0) "a" = ([97], .ok (0, 1)) ∧
      ((fun _ _ _ => (⟨[0xd800], [0, 1]⟩ : ModuleCall)) ([97] : List Nat) (0 : Int)
          (1 : Nat)).raw = [0, 1] ∧
      ((fun _ _ => (⟨[0xd800], [0, 1]⟩ : ModuleCall)) badMemHandle.mem (7 : Int)).raw =
        [0, 1]) ∧
    (runtimeProcess badMemHandle (fun _ => 0) (fun _ _ _ => ⟨[0xd800], [0, 1]⟩) "a").1.freeCalls =
      [] ++ [((0 : Int), (1 : Nat))] ∧
    (runtimeTick badMemHandle (fun _ _ => ⟨[0xd800], [0, 1]⟩) 7).1.freeCalls =
      [] ++ [((0 : Int), (1 : Nat))] := by
  have hlive : badMemHandle.engine_ptr ≠ 0 := by decide
  have hw : write_utf8 badMemHandle.mem (fun _ => 0) "a" = ([97], .ok (0, 1)) := rfl
  refine ⟨⟨hlive, hw, rfl, rfl⟩, ?_, ?_⟩
  · exact (process_frees_result_exactly_once badMemHandle (fun _ => 0)
      (fun _ _ _ => ⟨[0xd800], [0, 1]⟩) (fun _ _ => ⟨[0xd800], [0, 1]⟩) "a" 7 hlive).1
      [97] 0 1 0 1 hw rfl
  · exact (process_frees_result_exactly_once badMemHandle (fun _ => 0)
      (fun _ _ _ => ⟨[0xd800], [0, 1]⟩) (fun _ _ => ⟨[0xd800], [0, 1]⟩) "a" 7 hlive).2
      0 1 rfl

end MineCompanion

namespace MineCompanion

/-! ## C5 — output routing of on_world_diff -/

/-- The output loop collects exactly the `mod_action`/`utterance` outputs (in
order) and appends exactly the normalized `story_event` outputs (in order). -/
theorem collectOutputs_spec (sid : String) (l : List JVal) :
    collectOutputs sid l =
      (l.filter (fun o => (o.pyGet "type").strEq "mod_action" ||
          (o.pyGet "type").strEq "utterance"),
       (l.filter (fun o => (o.pyGet "type").strEq "story_event")).map
         (fun o => Effect.storyAppend sid (normalize_story_event o))) := by
  induction l with
  | nil => rfl
  | cons o rest ih =>
    simp only [collectOutputs, ih, List.filter_cons]
    cases h1 : (o.pyGet "type").strEq "story_event" <;>
      cases h2 : ((o.pyGet "type").strEq "mod_action" ||
        (o.pyGet "type").strEq "utterance") <;>
      simp [h1, h2]

/-- A successful vision-upsert step contributes no story append, and all its
effects are vision saves. -/
theorem visionSaveEffects_shape (sid : String) (diff : JVal) (vE : List Effect)
    (h : visionSaveEffects sid diff = .ok vE) :
    vE.filter Effect.isStoryAppend = [] ∧ vE.filter Effect.isVisionSave = vE := by
  simp only [visionSaveEffects] at h
  split at h
  · cases h
    exact ⟨rfl, rfl⟩
  · split at h
    · cases h
    · cases h
      simp [Effect.isStoryAppend, Effect.isVisionSave]

/-- C5: for a ready session whose module invocation succeeds, `on_world_diff`
returns exactly the `mod_action` and `utterance` outputs in emission order,
appends exactly the normalized `story_event` outputs to the StoryStore (in
emission order), and no returned output is a story event.  The `hobj`
hypothesis restricts to object-shaped outputs, the only ones on the wire
contract (a non-dict output would make the source raise before routing
anything). -/
theorem world_diff_returns_only_actions_and_utterances
    (s : EngineSessionM) (rt : SessionRuntimeM) (h0 : EngineHandleM) (diff : JVal)
    (now nowMs : Int) (parsed : List JVal) (vE : List Effect)
    (hinit : s.initialized = true) (hh : s.handle = some h0)
    (hproc : rt.procCall (JVal.obj [("type", .str "event"), ("kind", .str "world_change"),
        ("data", normalize_world_diff diff nowMs)]) = .ok parsed)
    (hvis : visionSaveEffects s.session_id diff = .ok vE)
    (_hobj : ∀ o ∈ parsed, o.isObj = true) :
    (EngineSessionM.on_world_diff s rt diff now nowMs).2.1 =
      .ok (parsed.filter (fun o => (o.pyGet "type").strEq "mod_action" ||
          (o.pyGet "type").strEq "utterance")) ∧
    ((EngineSessionM.on_world_diff s rt diff now nowMs).2.2).filter Effect.isStoryAppend =
      (parsed.filter (fun o => (o.pyGet "type").strEq "story_event")).map
        (fun o => Effect.storyAppend s.session_id (normalize_story_event o)) ∧
    (∀ o ∈ parsed.filter (fun o => (o.pyGet "type").strEq "mod_action" ||
          (o.pyGet "type").strEq "utterance"),
      (o.pyGet "type").strEq "story_event" = false) := by
  have hguard : (!s.initialized || s.handle.isNone) = false := by
    simp [hinit, hh]
  refine ⟨?_, ?_, ?_⟩
  · simp only [EngineSessionM.on_world_diff, hguard, Bool.false_eq_true, if_false,
      hproc, hvis, collectOutputs_spec]
  · simp only [EngineSessionM.on_world_diff, hguard, Bool.false_eq_true, if_false,
      hproc, hvis, collectOutputs_spec, List.filter_append]
    rw [(visionSaveEffects_shape s.session_id diff vE hvis).1]
    have hstory : ((parsed.filter (fun o => (o.pyGet "type").strEq "story_event")).map
        (fun o => Effect.storyAppend s.session_id (normalize_story_event o))).filter
          Effect.isStoryAppend =
        (parsed.filter (fun o => (o.pyGet "type").strEq "story_event")).map
          (fun o => Effect.storyAppend s.session_id (normalize_story_event o)) := by
      apply List.filter_eq_self.mpr
      intro e he
      rcases List.mem_map.mp he with ⟨o, _, rfl⟩
      rfl
    rw [hstory]
    simp [Effect.isStoryAppend]
  · intro o ho
    rcases List.mem_filter.mp ho with ⟨_, hmu⟩
    rcases Bool.or_eq_true_iff.mp hmu with h | h <;>
      · cases hty : o.pyGet "type" <;> simp_all [JVal.strEq]

/-- Witness for C5: a concrete module emission containing one story event, one
mod action, one utterance and one unrelated output. -/
theorem world_diff_returns_only_actions_and_utterances_witness :
    (sessR.initialized = true ∧ sessR.handle = some ⟨[], 1, [], 0⟩ ∧
      (SessionRuntimeM.mk (fun _ => .ok ⟨[], 1, [], 0⟩)
          (fun _ => .ok [JVal.obj [("type", .str "story_event"), ("summary", .str "s")],
            .obj [("type", .str "mod_action")], .obj [("type", .str "utterance")],
            .obj [("type", .str "engine_ready")]])).procCall
        (JVal.obj [("type", .str "event"), ("kind", .str "world_change"),
          ("data", normalize_world_diff (.obj []) 2)]) =
        .ok [JVal.obj [("type", .str "story_event"), ("summary", .str "s")],
          .obj [("type", .str "mod_action")], .obj [("type", .str "utterance")],
          .obj [("type", .str "engine_ready")]] ∧
      visionSaveEffects sessR.session_id (.obj []) = .ok [] ∧
      (∀ o ∈ [JVal.obj [("type", .str "story_event"), ("summary", .str "s")],
          .obj [("type", .str "mod_action")], .obj [("type", .str "utterance")],
          .obj [("type", .str "engine_ready")]], o.isObj = true)) ∧
    (EngineSessionM.on_world_diff sessR
        (SessionRuntimeM.mk (fun _ => .ok ⟨[], 1, [], 0⟩)
          (fun _ => .ok [JVal.obj [("type", .str "story_event"), ("summary", .str "s")],
            .obj [("type", .str "mod_action")], .obj [("type", .str "utterance")],
            .obj [("type", .str "engine_ready")]])) (.obj []) 1 2).2.1 =
      .ok ([JVal.obj [("type", .str "story_event"), ("summary", .str "s")],
          .obj [("type", .str "mod_action")], .obj [("type", .str "utterance")],
          .obj [("type", .str "engine_ready")]].filter
        (fun o => (o.pyGet "type").strEq "mod_action" ||
          (o.pyGet "type").strEq "utterance")) := by
  have hproc : (SessionRuntimeM.mk (fun _ => .ok ⟨[], 1, [], 0⟩)
      (fun _ => .ok [JVal.obj [("type", .str "story_event"), ("summary", .str "s")],
        .obj [("type", .str "mod_action")], .obj [("type", .str "utterance")],
        .obj [("type", .str "engine_ready")]])).procCall
      (JVal.obj [("type", .str "event"), ("kind", .str "world_change"),
        ("data", normalize_world_diff (.obj []) 2)]) =
      .ok [JVal.obj [("type", .str "story_event"), ("summary", .str "s")],
        .obj [("type", .str "mod_action")], .obj [("type", .str "utterance")],
        .obj [("type", .str "engine_ready")]] := rfl
  have hvis : visionSaveEffects sessR.session_id (.obj []) = .ok [] := rfl
  have hobj : ∀ o ∈ [JVal.obj [("type", .str "story_event"), ("summary", .str "s")],
      .obj [("type", .str "mod_action")], .obj [("type", .str "utterance")],
      .obj [("type", .str "engine_ready")]], o.isObj = true := by decide
  exact ⟨⟨rfl, rfl, hproc, hvis, hobj⟩,
    (world_diff_returns_only_actions_and_utterances sessR _ ⟨[], 1, [], 0⟩ (.obj []) 1 2
      _ [] rfl rfl hproc hvis hobj).1⟩

end MineCompanion

namespace MineCompanion

/-! ## C9 — vision upsert and the tick fallback chain -/

/-- Truncation of an integer-valued rational is the integer. -/
theorem ratTrunc_intCast (t : Int) : ratTrunc (t : Rat) = t := by
  have h : ∀ z : Int, ((z : Rat)).floor = z := by
    intro z
    simp [Rat.floor_def']
  unfold ratTrunc
  split
  · rw [show (-(t : Rat)) = ((-t : Int) : Rat) by push_cast; ring, h]
    ring
  · exact h t




/-- Truncation of the rational zero. -/
theorem ratTrunc_zero : ratTrunc 0 = 0 := by decide

/-- The source's vision-upsert step coincides with the spec's fallback chain
whenever the delta's `tick` and the vision block's `tick` are integers or
absent (`.null` covers both an absent key and a stored JSON null, exactly as
`dict.get` does). -/
theorem visionSaveEffects_eq (sid : String) (diff : JVal)
    (hdt : diff.pyGet "tick" = .null ∨ ∃ t : Int, diff.pyGet "tick" = .num t)
    (hvt : (diff.pyGet "vision").pyGet "tick" = .null ∨
      ∃ t : Int, (diff.pyGet "vision").pyGet "tick" = .num t) :
    visionSaveEffects sid diff =
      .ok (if (diff.pyGet "vision").isNull then []
           else [Effect.visionSave sid (diff.pyGet "vision") (specTickFallback diff)]) := by
  simp only [visionSaveEffects, specTickFallback]
  rcases hdt with hdt | ⟨t, hdt⟩
  · cases hvn : diff.pyGet "vision" with
    | null => simp [JVal.isNull]
    | bool b =>
      rw [hdt]
      simp [JVal.pyGet, JVal.pyGetD, JVal.isNull, JVal.isObj, pyTruthy, pyInt,
        ratTrunc_zero]
    | num q =>
      rw [hdt]
      simp [JVal.pyGet, JVal.pyGetD, JVal.isNull, JVal.isObj, pyTruthy, pyInt,
        ratTrunc_zero]
    | str v =>
      rw [hdt]
      simp [JVal.pyGet, JVal.pyGetD, JVal.isNull, JVal.isObj, pyTruthy, pyInt,
        ratTrunc_zero]
    | arr xs =>
      rw [hdt]
      simp [JVal.pyGet, JVal.pyGetD, JVal.isNull, JVal.isObj, pyTruthy, pyInt,
        ratTrunc_zero]
    | obj fs =>
      rw [hvn] at hvt
      rw [hdt]
      simp only [JVal.pyGet, JVal.pyGetD] at hvt ⊢
      cases hl : lookupField "tick" fs with
      | none =>
        simp [hl, JVal.isNull, JVal.isObj, pyTruthy, pyInt, ratTrunc_zero]
      | some x =>
        rw [hl] at hvt
        rcases hvt with hvt | ⟨u, hvt⟩
        · subst hvt
          simp [hl, JVal.isNull, JVal.isObj, pyTruthy, pyInt, ratTrunc_zero]
        · subst hvt
          by_cases hu : ((u : Rat) = 0)
          · have hu0 : u = 0 := by exact_mod_cast hu
            simp [hl, JVal.isNull, JVal.isObj, pyTruthy, pyInt, hu, hu0, ratTrunc_zero]
          · simp [hl, JVal.isNull, JVal.isObj, pyTruthy, pyInt, hu, ratTrunc_intCast]
  · cases hvn : diff.pyGet "vision" with
    | null => simp [JVal.isNull]
    | bool b =>
      rw [hdt]
      by_cases ht : ((t : Rat) = 0)
      · have ht0 : t = 0 := by exact_mod_cast ht
        simp [JVal.isNull, JVal.isObj, pyTruthy, pyInt, ht, ht0, ratTrunc_zero]
      · simp [JVal.isNull, JVal.isObj, pyTruthy, pyInt, ht, ratTrunc_intCast]
    | num q =>
      rw [hdt]
      by_cases ht : ((t : Rat) = 0)
      · have ht0 : t = 0 := by exact_mod_cast ht
        simp [JVal.isNull, JVal.isObj, pyTruthy, pyInt, ht, ht0, ratTrunc_zero]
      · simp [JVal.isNull, JVal.isObj, pyTruthy, pyInt, ht, ratTrunc_intCast]
    | str v =>
      rw [hdt]
      by_cases ht : ((t : Rat) = 0)
      · have ht0 : t = 0 := by exact_mod_cast ht
        simp [JVal.isNull, JVal.isObj, pyTruthy, pyInt, ht, ht0, ratTrunc_zero]
      · simp [JVal.isNull, JVal.isObj, pyTruthy, pyInt, ht, ratTrunc_intCast]
    | arr xs =>
      rw [hdt]
      by_cases ht : ((t : Rat) = 0)
      · have ht0 : t = 0 := by exact_mod_cast ht
        simp [JVal.isNull, JVal.isObj, pyTruthy, pyInt, ht, ht0, ratTrunc_zero]
      · simp [JVal.isNull, JVal.isObj, pyTruthy, pyInt, ht, ratTrunc_intCast]
    | obj fs =>
      rw [hdt]
      by_cases ht : ((t : Rat) = 0)
      · have ht0 : t = 0 := by exact_mod_cast ht
        simp [JVal.isNull, JVal.isObj, pyTruthy, pyInt, ht, ht0, ratTrunc_zero]
      · simp [JVal.isNull, JVal.isObj, pyTruthy, pyInt, ht, ratTrunc_intCast]

end MineCompanion

namespace MineCompanion

/-- C9: for a ready session whose module invocation succeeds and whose tick
fields are integers or absent, `on_world_diff` performs exactly one
`VisionStore.save`, keyed by the session's own id, carrying the diff's vision
value, with tick equal to the diff's own tick when present, else the vision
block's tick when present, else 0 (`specTickFallback`); and performs no vision
save at all when the input carries no vision block. -/
theorem world_diff_vision_upsert_tick_fallback
    (s : EngineSessionM) (rt : SessionRuntimeM) (h0 : EngineHandleM) (diff : JVal)
    (now nowMs : Int) (parsed : List JVal)
    (hinit : s.initialized = true) (hh : s.handle = some h0)
    (hproc : rt.procCall (JVal.obj [("type", .str "event"), ("kind", .str "world_change"),
        ("data", normalize_world_diff diff nowMs)]) = .ok parsed)
    (hdt : diff.pyGet "tick" = .null ∨ ∃ t : Int, diff.pyGet "tick" = .num t)
    (hvt : (diff.pyGet "vision").pyGet "tick" = .null ∨
      ∃ t : Int, (diff.pyGet "vision").pyGet "tick" = .num t) :
    ((EngineSessionM.on_world_diff s rt diff now nowMs).2.2).filter Effect.isVisionSave =
      (if (diff.pyGet "vision").isNull then []
       else [Effect.visionSave s.session_id (diff.pyGet "vision")
         (specTickFallback diff)]) := by
  have hguard : (!s.initialized || s.handle.isNone) = false := by
    simp [hinit, hh]
  have hvis := visionSaveEffects_eq s.session_id diff hdt hvt
  simp only [EngineSessionM.on_world_diff, hguard, Bool.false_eq_true, if_false,
    hproc, hvis, collectOutputs_spec, List.filter_append]
  have h2 : ((parsed.filter (fun o => (o.pyGet "type").strEq "story_event")).map
      (fun o => Effect.storyAppend s.session_id (normalize_story_event o))).filter
        Effect.isVisionSave = [] := by
    apply List.filter_eq_nil_iff.mpr
    intro e he
    rcases List.mem_map.mp he with ⟨o, _, rfl⟩
    simp [Effect.isVisionSave]
  rw [h2]
  cases hvn : (diff.pyGet "vision").isNull <;>
    simp [hvn, Effect.isVisionSave]

/-- Witness for C9: a diff carrying both its own tick (42) and a vision tick
(7); the save uses the diff's own tick. -/
theorem world_diff_vision_upsert_tick_fallback_witness :
    (sessR.initialized = true ∧ sessR.handle = some ⟨[], 1, [], 0⟩ ∧
      rtOk.procCall (JVal.obj [("type", .str "event"), ("kind", .str "world_change"),
        ("data", normalize_world_diff (JVal.obj [("tick", .num ((42 : Int) : Rat)),
          ("vision", .obj [("tick", .num ((7 : Int) : Rat))])]) 2)]) = .ok [] ∧
      ((JVal.obj [("tick", .num ((42 : Int) : Rat)),
          ("vision", .obj [("tick", .num ((7 : Int) : Rat))])]).pyGet "tick" = .null ∨
        ∃ t : Int, (JVal.obj [("tick", .num ((42 : Int) : Rat)),
          ("vision", .obj [("tick", .num ((7 : Int) : Rat))])]).pyGet "tick" = .num t) ∧
      (((JVal.obj [("tick", .num ((42 : Int) : Rat)),
            ("vision", .obj [("tick", .num ((7 : Int) : Rat))])]).pyGet "vision").pyGet
          "tick" = .null ∨
        ∃ t : Int, ((JVal.obj [("tick", .num ((42 : Int) : Rat)),
            ("vision", .obj [("tick", .num ((7 : Int) : Rat))])]).pyGet "vision").pyGet
          "tick" = .num t)) ∧
    ((EngineSessionM.on_world_diff sessR rtOk
        (JVal.obj [("tick", .num ((42 : Int) : Rat)),
          ("vision", .obj [("tick", .num ((7 : Int) : Rat))])]) 1 2).2.2).filter
        Effect.isVisionSave =
      (if ((JVal.obj [("tick", .num ((42 : Int) : Rat)),
            ("vision", .obj [("tick", .num ((7 : Int) : Rat))])]).pyGet "vision").isNull
       then []
       else [Effect.visionSave sessR.session_id
         ((JVal.obj [("tick", .num ((42 : Int) : Rat)),
           ("vision", .obj [("tick", .num ((7 : Int) : Rat))])]).pyGet "vision")
         (specTickFallback (JVal.obj [("tick", .num ((42 : Int) : Rat)),
           ("vision", .obj [("tick", .num ((7 : Int) : Rat))])]))]) :=
  ⟨⟨rfl, rfl, rfl, Or.inr ⟨42, rfl⟩, Or.inr ⟨7, rfl⟩⟩,
   world_diff_vision_upsert_tick_fallback sessR rtOk ⟨[], 1, [], 0⟩
     (JVal.obj [("tick", .num ((42 : Int) : Rat)),
       ("vision", .obj [("tick", .num ((7 : Int) : Rat))])]) 1 2 []
     rfl rfl rfl (Or.inr ⟨42, rfl⟩) (Or.inr ⟨7, rfl⟩)⟩

end MineCompanion

namespace MineCompanion

/-! ## C6 — get_or_create reuses the initialized session -/



/-- A successful `initialize` leaves the session initialized. -/
theorem initSession_ok_initialized (s : EngineSessionM) (rt : SessionRuntimeM)
    (vs : VisionStoreM) (ss : StoryStoreM) (card config : JVal) (now : Int)
    (s' : EngineSessionM) (outs : List JVal) (effs : List Effect)
    (h : initSession s rt vs ss card config now = (s', .ok outs, effs)) :
    s'.initialized = true := by
  simp only [initSession] at h
  split at h
  · cases h
  · split at h
    · cases h
    · cases h
      rfl

/-- Upserting a key makes it the one looked up. -/
theorem assocLookup_update_self {α : Type} (k : String) (v : α)
    (l : List (String × α)) : assocLookup k (assocUpdate k v l) = some v := by
  induction l with
  | nil => simp [assocUpdate, assocLookup]
  | cons p rest ih =>
    by_cases hk : p.1 = k
    · simp [assocUpdate, assocLookup, hk]
    · simp [assocUpdate, assocLookup, hk, ih]

/-- C6: if a `get_or_create` call succeeded, a second `get_or_create` for the
same session id (with any card, config or clock) returns the very session the
first call produced, returns the registry unchanged, and does not call
`initialize` (the boolean component is false), hence creates no module
instance. -/
theorem get_or_create_reuses_initialized_session (m0 m1 : ManagerM)
    (rt : SessionRuntimeM) (vs : VisionStoreM) (ss : StoryStoreM)
    (sid cid cid' : String) (card config card' config' : JVal) (now now' : Int)
    (s1 : EngineSessionM) (b : Bool)
    (h1 : ManagerM.get_or_create m0 rt vs ss sid cid card config now =
      (m1, .ok (s1, b))) :
    ManagerM.get_or_create m1 rt vs ss sid cid' card' config' now' =
      (m1, .ok (s1, false)) := by
  have hkey : assocLookup sid m1.sessions = some s1 ∧ s1.initialized = true := by
    simp only [ManagerM.get_or_create] at h1
    cases hl : assocLookup sid m0.sessions with
    | some sess =>
      rw [hl] at h1
      by_cases hi : sess.initialized = true
      · simp only [hi, eq_self_iff_true, if_true, Prod.mk.injEq, Except.ok.injEq] at h1
        obtain ⟨hm, hs, hb⟩ := h1
        subst hm
        subst hs
        exact ⟨hl, hi⟩
      · simp only [hi, if_false, Bool.not_eq_true] at h1
        rcases hI : initSession (freshSession sid cid now) rt vs ss card config now
          with ⟨sA, rA, eA⟩
        rw [hI] at h1
        cases rA with
        | error e => simp at h1
        | ok outs =>
          simp only [Bool.false_eq_true, if_false, Prod.mk.injEq, Except.ok.injEq] at h1
          obtain ⟨hm, hs, hb⟩ := h1
          subst hm
          subst hs
          exact ⟨assocLookup_update_self sid sA m0.sessions,
            initSession_ok_initialized _ rt vs ss card config now sA outs eA hI⟩
    | none =>
      rw [hl] at h1
      rcases hI : initSession (freshSession sid cid now) rt vs ss card config now
        with ⟨sA, rA, eA⟩
      rw [hI] at h1
      cases rA with
      | error e => simp at h1
      | ok outs =>
        simp only [Prod.mk.injEq, Except.ok.injEq] at h1
        obtain ⟨hm, hs, hb⟩ := h1
        subst hm
        subst hs
        exact ⟨assocLookup_update_self sid sA m0.sessions,
          initSession_ok_initialized _ rt vs ss card config now sA outs eA hI⟩
  simp [ManagerM.get_or_create, hkey.1, hkey.2]

/-- Witness for C6: a concrete first creation followed by a reusing second
call. -/
theorem get_or_create_reuses_initialized_session_witness :
    (ManagerM.get_or_create ⟨[]⟩ rtOk vs0 ss0 "S" "C" (.obj []) (.obj []) 5 =
      (⟨[("S", sessS5)]⟩, .ok (sessS5, true))) ∧
    ManagerM.get_or_create ⟨[("S", sessS5)]⟩ rtOk vs0 ss0 "S" "C2" (.obj [])
        (.obj []) 9 =
      (⟨[("S", sessS5)]⟩, .ok (sessS5, false)) :=
  ⟨rfl,
   get_or_create_reuses_initialized_session ⟨[]⟩ ⟨[("S", sessS5)]⟩ rtOk vs0 ss0
     "S" "C" "C2" (.obj []) (.obj []) (.obj []) (.obj []) 5 9 sessS5 true rfl⟩

end MineCompanion

namespace MineCompanion

/-! ## C7 — cleanup_idle removes exactly the stale sessions -/

/-- An absent key has no entry. -/
theorem assocLookup_eq_none {α : Type} (k : String) (l : List (String × α))
    (h : assocLookup k l = none) : ∀ p ∈ l, p.1 ≠ k := by
  induction l with
  | nil => intro p hp; cases hp
  | cons q rest ih =>
    intro p hp
    simp only [assocLookup] at h
    by_cases hq : q.1 = k
    · rw [if_pos hq] at h
      cases h
    · rw [if_neg hq] at h
      rcases List.mem_cons.mp hp with hp | hp
      · subst hp; exact hq
      · exact ih h p hp

/-- With duplicate-free keys, every entry is the one its key looks up. -/
theorem assocLookup_of_nodup {α : Type} (l : List (String × α))
    (hnd : (l.map Prod.fst).Nodup) (k : String) (v : α) (hm : (k, v) ∈ l) :
    assocLookup k l = some v := by
  induction l with
  | nil => cases hm
  | cons q rest ih =>
    rcases List.nodup_cons.mp hnd with ⟨hq, hrest⟩
    rcases List.mem_cons.mp hm with he | hm
    · rw [← he]
      simp [assocLookup]
    · have hk : q.1 ≠ k := by
        intro heq
        exact hq (heq ▸ List.mem_map.mpr ⟨(k, v), hm, rfl⟩)
      simp only [assocLookup, if_neg hk]
      exact ih hrest hm

/-- With duplicate-free keys, entries are determined by their key. -/
theorem assoc_entry_unique {α : Type} (l : List (String × α))
    (hnd : (l.map Prod.fst).Nodup) (p q : String × α)
    (hp : p ∈ l) (hq : q ∈ l) (hk : p.1 = q.1) : p = q := by
  obtain ⟨pa, pb⟩ := p
  obtain ⟨qa, qb⟩ := q
  have hk' : pa = qa := hk
  subst hk'
  have h1 := assocLookup_of_nodup l hnd pa pb hp
  have h2 := assocLookup_of_nodup l hnd pa qb hq
  rw [h2] at h1
  injection h1 with h3
  rw [h3]

/-- Removing a key is filtering it out. -/
theorem assocRemove_eq_filter {α : Type} (k : String) (l : List (String × α)) :
    assocRemove k l = l.filter (fun p => !decide (p.1 = k)) := by
  induction l with
  | nil => rfl
  | cons q rest ih =>
    by_cases hq : q.1 = k
    · simp [assocRemove, List.filter_cons, hq, ih]
    · simp [assocRemove, List.filter_cons, hq, ih]

/-- Filtering out other keys does not change a lookup. -/
theorem assocLookup_filter_ne {α : Type} (k k' : String) (l : List (String × α))
    (hne : k' ≠ k) :
    assocLookup k' (l.filter (fun p => !decide (p.1 = k))) = assocLookup k' l := by
  induction l with
  | nil => rfl
  | cons q rest ih =>
    by_cases hq : q.1 = k
    · simp [List.filter_cons, hq, assocLookup, Ne.symm hne, ih]
    · by_cases hq' : q.1 = k'
      · simp [List.filter_cons, hq, assocLookup, hq', hne, ih]
      · simp [List.filter_cons, hq, assocLookup, hq', hne, ih]

/-- The removal loop of `cleanup_idle`, run on duplicate-free ids: it filters
the popped keys out of the registry and closes, in order, the session each id
looked up at loop entry. -/
theorem foldl_popStep_spec (ids : List String) (hnd : ids.Nodup) :
    ∀ (l : List (String × EngineSessionM)) (acc : List EngineSessionM),
      ids.foldl popStep (⟨l⟩, acc) =
        (⟨l.filter (fun p => !decide (p.1 ∈ ids))⟩,
         acc ++ ids.filterMap (fun k =>
           (assocLookup k l).map (fun v => (EngineSessionM.close v).1))) := by
  induction ids with
  | nil =>
    intro l acc
    simp
  | cons k rest ih =>
    intro l acc
    rcases List.nodup_cons.mp hnd with ⟨hk, hrest⟩
    simp only [List.foldl_cons, List.filterMap_cons]
    cases hl : assocLookup k l with
    | none =>
      have hstep : popStep (⟨l⟩, acc) k = (⟨l⟩, acc) := by
        simp [popStep, hl]
      rw [hstep, ih hrest l acc]
      have hf : l.filter (fun p => !decide (p.1 ∈ rest)) =
          l.filter (fun p => !decide (p.1 ∈ k :: rest)) := by
        apply List.filter_congr
        intro p hp
        have hpk : p.1 ≠ k := assocLookup_eq_none k l hl p hp
        simp [List.mem_cons, hpk]
      rw [hf]
      simp [hl]
    | some v =>
      have hstep : popStep (⟨l⟩, acc) k =
          (⟨assocRemove k l⟩, acc ++ [(EngineSessionM.close v).1]) := by
        simp [popStep, hl]
      rw [hstep, assocRemove_eq_filter, ih hrest
        (l.filter (fun p => !decide (p.1 = k))) (acc ++ [(EngineSessionM.close v).1])]
      have hreg : (l.filter (fun p => !decide (p.1 = k))).filter
          (fun p => !decide (p.1 ∈ rest)) =
          l.filter (fun p => !decide (p.1 ∈ k :: rest)) := by
        rw [List.filter_filter]
        apply List.filter_congr
        intro p hp
        cases hpk : decide (p.1 = k) <;> cases hpr : decide (p.1 ∈ rest) <;>
          simp_all [List.mem_cons]
      have hcl : rest.filterMap (fun k' =>
          (assocLookup k' (l.filter (fun p => !decide (p.1 = k)))).map
            (fun v => (EngineSessionM.close v).1)) =
          rest.filterMap (fun k' =>
            (assocLookup k' l).map (fun v => (EngineSessionM.close v).1)) := by
        apply List.filterMap_congr
        intro k' hk'
        rw [assocLookup_filter_ne k k' l (fun he => hk (he ▸ hk'))]
      rw [hreg, hcl]
      simp [hl, List.append_assoc]

end MineCompanion

namespace MineCompanion



/-- C7: with duplicate-free registry keys (Python dict keys are unique),
`cleanup_idle` leaves exactly the sessions whose `last_active` is within the
timeout at the scan point, its closed list is exactly the stale sessions (in
registry order) with `close()` applied to each, and any session whose
`last_active` at the scan point is within the timeout keeps its registry entry
unchanged.  The scan and the removals are one atomic step in the source (no
await between them), so "touched after the scan point" cannot occur within a
sweep; a touch before the sweep is reflected in `last_active` and covered by
the last conjunct. -/
theorem cleanup_idle_removes_exactly_stale (m : ManagerM) (now timeout : Int)
    (hnd : (m.sessions.map Prod.fst).Nodup) :
    (ManagerM.cleanup_idle m now timeout).1.sessions =
      m.sessions.filter (fun p => !decide (timeout < now - p.2.last_active)) ∧
    (ManagerM.cleanup_idle m now timeout).2 =
      (m.sessions.filter (fun p => decide (timeout < now - p.2.last_active))).map
        (fun p => (EngineSessionM.close p.2).1) ∧
    (∀ sid s, (sid, s) ∈ m.sessions → now - s.last_active ≤ timeout →
      (sid, s) ∈ (ManagerM.cleanup_idle m now timeout).1.sessions) := by
  have hsub : List.Sublist
      (m.sessions.filter (fun p => decide (timeout < now - p.2.last_active)))
      m.sessions := List.filter_sublist _
  have hndIds : (((m.sessions.filter
      (fun p => decide (timeout < now - p.2.last_active))).map Prod.fst)).Nodup :=
    hnd.sublist (hsub.map Prod.fst)
  have hform : ManagerM.cleanup_idle m now timeout =
      ((m.sessions.filter (fun p => decide (timeout < now - p.2.last_active))).map
        Prod.fst).foldl popStep (⟨m.sessions⟩, []) := rfl
  have hfold := foldl_popStep_spec _ hndIds m.sessions []
  rw [hform, hfold]
  have hiff : ∀ p ∈ m.sessions,
      (decide (p.1 ∈ (m.sessions.filter
        (fun p => decide (timeout < now - p.2.last_active))).map Prod.fst)) =
      decide (timeout < now - p.2.last_active) := by
    intro p hp
    by_cases hP : timeout < now - p.2.last_active
    · have h1 : decide (timeout < now - p.2.last_active) = true := decide_eq_true hP
      rw [h1, decide_eq_true_iff]
      exact List.mem_map.mpr ⟨p, List.mem_filter.mpr ⟨hp, h1⟩, rfl⟩
    · have h1 : decide (timeout < now - p.2.last_active) = false := decide_eq_false hP
      rw [h1, decide_eq_false_iff_not]
      intro hmem
      rcases List.mem_map.mp hmem with ⟨q, hqf, hq1⟩
      rcases List.mem_filter.mp hqf with ⟨hql, hqP⟩
      have hqp : q = p := assoc_entry_unique m.sessions hnd q p hql hp hq1
      subst hqp
      exact hP (of_decide_eq_true hqP)
  have hreg : m.sessions.filter (fun p => !decide (p.1 ∈ (m.sessions.filter
      (fun p => decide (timeout < now - p.2.last_active))).map Prod.fst)) =
      m.sessions.filter (fun p => !decide (timeout < now - p.2.last_active)) := by
    apply List.filter_congr
    intro p hp
    rw [hiff p hp]
  have hcl : ((m.sessions.filter
      (fun p => decide (timeout < now - p.2.last_active))).map Prod.fst).filterMap
        (fun k => (assocLookup k m.sessions).map (fun v => (EngineSessionM.close v).1)) =
      (m.sessions.filter (fun p => decide (timeout < now - p.2.last_active))).map
        (fun p => (EngineSessionM.close p.2).1) := by
    rw [List.filterMap_map]
    rw [List.filterMap_congr (g := fun p =>
        some ((EngineSessionM.close p.2).1)) ?_]
    · exact List.filterMap_eq_map _ ▸ rfl
    · intro q hq
      rcases List.mem_filter.mp hq with ⟨hql, _⟩
      simp only [Function.comp]
      rw [assocLookup_of_nodup m.sessions hnd q.1 q.2 hql]
      rfl
  refine ⟨hreg, ?_, ?_⟩
  · rw [hcl]
    rfl
  · intro sid s hmem hfresh
    rw [hreg]
    apply List.mem_filter.mpr
    refine ⟨hmem, ?_⟩
    simp only [Bool.not_eq_true', decide_eq_false_iff_not]
    exact fun hlt => absurd hfresh (not_le.mpr hlt)

/-- Witness for C7: a registry holding one stale and one fresh session; the
sweep removes and closes exactly the stale one. -/
theorem cleanup_idle_removes_exactly_stale_witness :
    (((⟨[("S", sessS5), ("T", sessT)]⟩ : ManagerM).sessions.map Prod.fst).Nodup ∧
      (50 : Int) - sessT.last_active ≤ 10) ∧
    ((ManagerM.cleanup_idle ⟨[("S", sessS5), ("T", sessT)]⟩ 50 10).1.sessions =
      ([("S", sessS5), ("T", sessT)] : List (String × EngineSessionM)).filter
        (fun p => !decide ((10 : Int) < 50 - p.2.last_active)) ∧
     (ManagerM.cleanup_idle ⟨[("S", sessS5), ("T", sessT)]⟩ 50 10).2 =
      (([("S", sessS5), ("T", sessT)] : List (String × EngineSessionM)).filter
        (fun p => decide ((10 : Int) < 50 - p.2.last_active))).map
        (fun p => (EngineSessionM.close p.2).1) ∧
     ("T", sessT) ∈ (ManagerM.cleanup_idle ⟨[("S", sessS5), ("T", sessT)]⟩ 50 10).1.sessions) := by
  have hnd : (((⟨[("S", sessS5), ("T", sessT)]⟩ : ManagerM).sessions.map Prod.fst)).Nodup := by
    decide
  have hfresh : (50 : Int) - sessT.last_active ≤ 10 := by decide
  have hmain := cleanup_idle_removes_exactly_stale ⟨[("S", sessS5), ("T", sessT)]⟩ 50 10 hnd
  exact ⟨⟨hnd, hfresh⟩, hmain.1, hmain.2.1,
    hmain.2.2 "T" sessT (by simp) hfresh⟩

end MineCompanion

namespace MineCompanion

/-! ## C10 — the registry holds only initialized sessions -/



/-- Every entry after an upsert is the new binding or an old entry. -/
theorem mem_assocUpdate {α : Type} (k : String) (v : α) (l : List (String × α))
    (p : String × α) (h : p ∈ assocUpdate k v l) : p = (k, v) ∨ p ∈ l := by
  induction l with
  | nil =>
    rcases List.mem_singleton.mp h with h
    exact Or.inl h
  | cons q rest ih =>
    by_cases hq : q.1 = k
    · rw [assocUpdate, if_pos hq] at h
      rcases List.mem_cons.mp h with h | h
      · exact Or.inl h
      · exact Or.inr (List.mem_cons.mpr (Or.inr h))
    · rw [assocUpdate, if_neg hq] at h
      rcases List.mem_cons.mp h with h | h
      · exact Or.inr (List.mem_cons.mpr (Or.inl h))
      · rcases ih h with h | h
        · exact Or.inl h
        · exact Or.inr (List.mem_cons.mpr (Or.inr h))

/-- The three possible outcomes of `get_or_create`: reuse of a registered
initialized session, a propagated initialize failure (registry untouched), or
registration of the freshly initialized session. -/
theorem get_or_create_cases (m : ManagerM) (rt : SessionRuntimeM) (vs : VisionStoreM)
    (ss : StoryStoreM) (sid cid : String) (card config : JVal) (now : Int) :
    (∃ s, assocLookup sid m.sessions = some s ∧ s.initialized = true ∧
      ManagerM.get_or_create m rt vs ss sid cid card config now = (m, .ok (s, false))) ∨
    (∃ e, ManagerM.get_or_create m rt vs ss sid cid card config now = (m, .error e)) ∨
    (∃ s' outs effs,
      initSession (freshSession sid cid now) rt vs ss card config now =
        (s', .ok outs, effs) ∧
      ManagerM.get_or_create m rt vs ss sid cid card config now =
        (⟨assocUpdate sid s' m.sessions⟩, .ok (s', true))) := by
  cases hl : assocLookup sid m.sessions with
  | some sess =>
    by_cases hi : sess.initialized = true
    · exact Or.inl ⟨sess, rfl, hi, by simp [ManagerM.get_or_create, hl, hi]⟩
    · rcases hI : initSession (freshSession sid cid now) rt vs ss card config now
        with ⟨sA, rA, eA⟩
      cases rA with
      | error e =>
        exact Or.inr (Or.inl ⟨e, by simp [ManagerM.get_or_create, hl, hi, hI]⟩)
      | ok outs =>
        exact Or.inr (Or.inr ⟨sA, outs, eA, rfl,
          by simp [ManagerM.get_or_create, hl, hi, hI]⟩)
  | none =>
    rcases hI : initSession (freshSession sid cid now) rt vs ss card config now
      with ⟨sA, rA, eA⟩
    cases rA with
    | error e =>
      exact Or.inr (Or.inl ⟨e, by simp [ManagerM.get_or_create, hl, hI]⟩)
    | ok outs =>
      exact Or.inr (Or.inr ⟨sA, outs, eA, rfl,
        by simp [ManagerM.get_or_create, hl, hI]⟩)

/-- Registry entries after a sweep were registry entries before it. -/
theorem cleanup_idle_mem_subset (m : ManagerM) (now timeout : Int) :
    ∀ p ∈ (ManagerM.cleanup_idle m now timeout).1.sessions, p ∈ m.sessions := by
  have hgen : ∀ (ids : List String) (st : ManagerM × List EngineSessionM),
      ∀ p ∈ (ids.foldl popStep st).1.sessions, p ∈ st.1.sessions := by
    intro ids
    induction ids with
    | nil => intro st p hp; exact hp
    | cons k rest ih =>
      intro st p hp
      rw [List.foldl_cons] at hp
      have hstep : ∀ q ∈ (popStep st k).1.sessions, q ∈ st.1.sessions := by
        intro q hq
        unfold popStep at hq
        cases hl : assocLookup k st.1.sessions with
        | some v =>
          rw [hl] at hq
          rw [show (⟨assocRemove k st.1.sessions⟩ : ManagerM) =
            (⟨assocRemove k st.1.sessions⟩ : ManagerM) from rfl] at hq
          have : q ∈ assocRemove k st.1.sessions := hq
          rw [assocRemove_eq_filter] at this
          exact (List.mem_filter.mp this).1
        | none =>
          rw [hl] at hq
          exact hq
      exact hstep p (ih (popStep st k) p hp)
  intro p hp
  exact hgen _ (m, []) p hp

/-- C10: the registry-only-holds-initialized-sessions invariant.  An
`initialize` failure inside `get_or_create` propagates with the registry
unchanged; a successful `get_or_create` preserves the invariant (it registers
only the freshly initialized session); `cleanup_idle` (which only removes
entries) and `close_all` (which clears the registry) preserve it; `get` does
not mutate the registry at all. -/
theorem registry_holds_only_initialized_sessions :
    (∀ (m m' : ManagerM) (rt : SessionRuntimeM) (vs : VisionStoreM) (ss : StoryStoreM)
      (sid cid : String) (card config : JVal) (now : Int) (e : String),
      ManagerM.get_or_create m rt vs ss sid cid card config now = (m', .error e) →
      m' = m) ∧
    (∀ (m m' : ManagerM) (rt : SessionRuntimeM) (vs : VisionStoreM) (ss : StoryStoreM)
      (sid cid : String) (card config : JVal) (now : Int)
      (r : Except String (EngineSessionM × Bool)),
      RegInv m →
      ManagerM.get_or_create m rt vs ss sid cid card config now = (m', r) →
      RegInv m') ∧
    (∀ (m : ManagerM) (now timeout : Int),
      RegInv m → RegInv (ManagerM.cleanup_idle m now timeout).1) ∧
    (∀ m : ManagerM, RegInv (ManagerM.close_all m).1) := by
  refine ⟨?_, ?_, ?_, ?_⟩
  · intro m m' rt vs ss sid cid card config now e h
    rcases get_or_create_cases m rt vs ss sid cid card config now with
      ⟨s, _, _, heq⟩ | ⟨e', heq⟩ | ⟨s', outs, effs, _, heq⟩
    · rw [heq] at h
      cases h
    · rw [heq] at h
      have hm : m = m' := congrArg Prod.fst h
      exact hm.symm
    · rw [heq] at h
      simp at h
  · intro m m' rt vs ss sid cid card config now r hinv h
    rcases get_or_create_cases m rt vs ss sid cid card config now with
      ⟨s, _, _, heq⟩ | ⟨e', heq⟩ | ⟨s', outs, effs, hI, heq⟩
    · rw [heq] at h
      have hm : m = m' := congrArg Prod.fst h
      exact hm ▸ hinv
    · rw [heq] at h
      have hm : m = m' := congrArg Prod.fst h
      exact hm ▸ hinv
    · rw [heq] at h
      have hm : (⟨assocUpdate sid s' m.sessions⟩ : ManagerM) = m' :=
        congrArg Prod.fst h
      rw [← hm]
      intro p hp
      rcases mem_assocUpdate sid s' m.sessions p hp with hp | hp
      · rw [hp]
        exact initSession_ok_initialized _ rt vs ss card config now s' outs effs hI
      · exact hinv p hp
  · intro m now timeout hinv p hp
    exact hinv p (cleanup_idle_mem_subset m now timeout p hp)
  · intro m p hp
    cases hp

/-- Witness for C10: a trapping module leaves the registry unchanged; the
other conjuncts at the concrete one-session registry. -/
theorem registry_holds_only_initialized_sessions_witness :
    (ManagerM.get_or_create ⟨[]⟩
      (SessionRuntimeM.mk (fun _ => .error "trap") (fun _ => .ok [])) vs0 ss0
      "S" "C" (.obj []) (.obj []) 0 = ((⟨[]⟩ : ManagerM), .error "trap") ∧
     RegInv ⟨[("S", sessS5)]⟩) ∧
    ((⟨[]⟩ : ManagerM) = ⟨[]⟩ ∧
     RegInv ⟨[("S", sessS5)]⟩ ∧
     RegInv (ManagerM.cleanup_idle ⟨[("S", sessS5)]⟩ 50 10).1 ∧
     RegInv (ManagerM.close_all ⟨[("S", sessS5)]⟩).1) := by
  have h1 : ManagerM.get_or_create ⟨[]⟩
      (SessionRuntimeM.mk (fun _ => .error "trap") (fun _ => .ok [])) vs0 ss0
      "S" "C" (.obj []) (.obj []) 0 = ((⟨[]⟩ : ManagerM), .error "trap") := rfl
  have h2 : RegInv ⟨[("S", sessS5)]⟩ := by
    intro p hp
    rcases List.mem_singleton.mp hp with h
    subst h
    rfl
  have h3 : ManagerM.get_or_create ⟨[("S", sessS5)]⟩
      (SessionRuntimeM.mk (fun _ => .error "trap") (fun _ => .ok [])) vs0 ss0
      "S" "C" (.obj []) (.obj []) 0 = (⟨[("S", sessS5)]⟩, .ok (sessS5, false)) := rfl
  refine ⟨⟨h1, h2⟩, ?_, ?_, ?_, ?_⟩
  · exact registry_holds_only_initialized_sessions.1 ⟨[]⟩ ⟨[]⟩
      (SessionRuntimeM.mk (fun _ => .error "trap") (fun _ => .ok [])) vs0 ss0
      "S" "C" (.obj []) (.obj []) 0 "trap" h1
  · exact registry_holds_only_initialized_sessions.2.1 ⟨[("S", sessS5)]⟩
      ⟨[("S", sessS5)]⟩ (SessionRuntimeM.mk (fun _ => .error "trap") (fun _ => .ok []))
      vs0 ss0 "S" "C" (.obj []) (.obj []) 0 (.ok (sessS5, false)) h2 h3
  · exact registry_holds_only_initialized_sessions.2.2.1 ⟨[("S", sessS5)]⟩ 50 10 h2
  · exact registry_holds_only_initialized_sessions.2.2.2 ⟨[("S", sessS5)]⟩

end MineCompanion

namespace MineCompanion

/-! ## C8 — ordering of story history -/







/-- Insertion into a descending list only adds the inserted row. -/
theorem mem_insertDescRow (r : StoryRowM) (l : List StoryRowM) (x : StoryRowM)
    (h : x ∈ insertDescRow r l) : x = r ∨ x ∈ l := by
  induction l with
  | nil =>
    rcases List.mem_singleton.mp h with h
    exact Or.inl h
  | cons y ys ih =>
    rw [insertDescRow] at h
    by_cases hc : y.row_timestamp ≤ r.row_timestamp
    · rw [if_pos hc] at h
      rcases List.mem_cons.mp h with h | h
      · exact Or.inl h
      · exact Or.inr h
    · rw [if_neg hc] at h
      rcases List.mem_cons.mp h with h | h
      · exact Or.inr (List.mem_cons.mpr (Or.inl h))
      · rcases ih h with h | h
        · exact Or.inl h
        · exact Or.inr (List.mem_cons.mpr (Or.inr h))

/-- Insertion preserves the descending-timestamp ordering. -/
theorem pairwise_insertDescRow (r : StoryRowM) (l : List StoryRowM)
    (h : l.Pairwise (fun a b => b.row_timestamp ≤ a.row_timestamp)) :
    (insertDescRow r l).Pairwise (fun a b => b.row_timestamp ≤ a.row_timestamp) := by
  induction l with
  | nil => simp [insertDescRow]
  | cons y ys ih =>
    rcases List.pairwise_cons.mp h with ⟨hy, hys⟩
    rw [insertDescRow]
    by_cases hc : y.row_timestamp ≤ r.row_timestamp
    · rw [if_pos hc]
      apply List.pairwise_cons.mpr
      refine ⟨?_, h⟩
      intro z hz
      rcases List.mem_cons.mp hz with hz | hz
      · rw [hz]; exact hc
      · exact le_trans (hy z hz) hc
    · rw [if_neg hc]
      apply List.pairwise_cons.mpr
      refine ⟨?_, ih hys⟩
      intro z hz
      rcases mem_insertDescRow r ys z hz with hz | hz
      · rw [hz]; exact le_of_lt (not_le.mp hc)
      · exact hy z hz

/-- The insertion sort of `load_history` is descending by timestamp. -/
theorem pairwise_sortRowsDesc (l : List StoryRowM) :
    (sortRowsDesc l).Pairwise (fun a b => b.row_timestamp ≤ a.row_timestamp) := by
  induction l with
  | nil => simp [sortRowsDesc]
  | cons x xs ih => exact pairwise_insertDescRow x (sortRowsDesc xs) ih

/-- The init payload carries the history list verbatim in its
`story_history` field. -/
theorem mkInitPayload_story_history (sid : String) (card config vision : JVal)
    (hist : List JVal) :
    (mkInitPayload sid card config vision hist).pyGet "story_history" = .arr hist := by
  simp [mkInitPayload, JVal.pyGet, JVal.pyGetD, lookupField]

/-- Every init-event payload `initialize` sends to the module bundles exactly
the history `load_history` returned (most-recent-first), unreversed. -/
theorem initSession_payload_history (s : EngineSessionM) (rt : SessionRuntimeM)
    (vs : VisionStoreM) (ss : StoryStoreM) (card config : JVal) (now : Int) (p : JVal)
    (hp : Effect.modProcess p ∈ (initSession s rt vs ss card config now).2.2) :
    p.pyGet "story_history" = .arr (StoryStoreM.load_history ss s.session_id 100) := by
  simp only [initSession] at hp
  cases hce : rt.create_engine config with
  | error e =>
    rw [hce] at hp
    simp at hp
  | ok h =>
    rw [hce] at hp
    cases hpr : rt.procCall (mkInitPayload s.session_id card config
        (if pyTruthy ((VisionStoreM.load vs s.session_id).getD .null) then
          (VisionStoreM.load vs s.session_id).getD .null
        else .obj []) (StoryStoreM.load_history ss s.session_id 100)) with
    | error e =>
      rw [hpr] at hp
      simp at hp
      rw [hp]
      exact mkInitPayload_story_history _ _ _ _ _
    | ok outs =>
      rw [hpr] at hp
      simp at hp
      rw [hp]
      exact mkInitPayload_story_history _ _ _ _ _

/-- C8 counterexample: a store holding events with timestamps 1 and 2 for
session "S"; the `story_history` bundled into the init event during
`initialize` lists the timestamp-2 event before the timestamp-1 event
(most-recent-first), so the bundled history is not ascending by timestamp as
the claim states. -/
theorem init_history_not_ascending :
    (Effect.modProcess (mkInitPayload "S" (.obj []) (.obj []) (.obj [])
        (StoryStoreM.load_history ss2 "S" 100)) ∈
      (initSession sessU rtOk vs0 ss2 (.obj []) (.obj []) 5).2.2) ∧
    (mkInitPayload "S" (.obj []) (.obj []) (.obj [])
        (StoryStoreM.load_history ss2 "S" 100)).pyGet "story_history" =
      .arr [rowB.node, rowA.node] ∧
    rowB.node.pyGet "timestamp" = .num 2 ∧
    rowA.node.pyGet "timestamp" = .num 1 ∧
    ¬ ((2 : Rat) ≤ 1) := by
  refine ⟨?_, rfl, rfl, rfl, by decide⟩
  have heff : (initSession sessU rtOk vs0 ss2 (.obj []) (.obj []) 5).2.2 =
      [Effect.visionLoad "S", Effect.storyLoadHistory "S", Effect.createEngine,
       Effect.modProcess (mkInitPayload "S" (.obj []) (.obj []) (.obj [])
         (StoryStoreM.load_history ss2 "S" 100))] := rfl
  rw [heff]
  exact List.Mem.tail _ (List.Mem.tail _ (List.Mem.tail _ (List.Mem.head _)))

/-- C8 amended: `load_history` returns at most `limit` events ordered
most-recent-first (timestamps descending), and the `story_history` bundled
into the init event is exactly that list, unreversed — i.e. also
most-recent-first, not ascending. -/
theorem init_history_descending_most_recent_first :
    (∀ (ss : StoryStoreM) (sid : String) (limit : Nat),
      ((loadHistoryRows ss sid limit).map (fun r => r.row_timestamp)).Pairwise
        (fun a b => b ≤ a) ∧
      (StoryStoreM.load_history ss sid limit).length ≤ limit) ∧
    (∀ (s : EngineSessionM) (rt : SessionRuntimeM) (vs : VisionStoreM)
      (ss : StoryStoreM) (card config : JVal) (now : Int) (p : JVal),
      Effect.modProcess p ∈ (initSession s rt vs ss card config now).2.2 →
      p.pyGet "story_history" = .arr (StoryStoreM.load_history ss s.session_id 100)) := by
  constructor
  · intro ss sid limit
    constructor
    · have hrows : (loadHistoryRows ss sid limit).Pairwise
          (fun a b => b.row_timestamp ≤ a.row_timestamp) :=
        (pairwise_sortRowsDesc _).sublist (List.take_sublist _ _)
      exact hrows.map _ (fun a b hab => hab)
    · calc (StoryStoreM.load_history ss sid limit).length
          = (loadHistoryRows ss sid limit).length := List.length_map _ _
        _ ≤ limit := List.length_take_le _ _
  · exact initSession_payload_history

/-- Witness for C8 amended, at the two-event store of the counterexample
scenario. -/
theorem init_history_descending_most_recent_first_witness :
    (Effect.modProcess (mkInitPayload "S" (.obj []) (.obj []) (.obj [])
        (StoryStoreM.load_history ss2 "S" 100)) ∈
      (initSession sessU rtOk vs0 ss2 (.obj []) (.obj []) 5).2.2) ∧
    (((loadHistoryRows ss2 "S" 100).map (fun r => r.row_timestamp)).Pairwise
        (fun a b => b ≤ a) ∧
      (StoryStoreM.load_history ss2 "S" 100).length ≤ 100) ∧
    (mkInitPayload "S" (.obj []) (.obj []) (.obj [])
        (StoryStoreM.load_history ss2 "S" 100)).pyGet "story_history" =
      .arr (StoryStoreM.load_history ss2 "S" 100) := by
  have hmem : Effect.modProcess (mkInitPayload "S" (.obj []) (.obj []) (.obj [])
      (StoryStoreM.load_history ss2 "S" 100)) ∈
      (initSession sessU rtOk vs0 ss2 (.obj []) (.obj []) 5).2.2 := by
    have heff : (initSession sessU rtOk vs0 ss2 (.obj []) (.obj []) 5).2.2 =
        [Effect.visionLoad "S", Effect.storyLoadHistory "S", Effect.createEngine,
         Effect.modProcess (mkInitPayload "S" (.obj []) (.obj []) (.obj [])
           (StoryStoreM.load_history ss2 "S" 100))] := rfl
    rw [heff]
    exact List.Mem.tail _ (List.Mem.tail _ (List.Mem.tail _ (List.Mem.head _)))
  exact ⟨hmem, init_history_descending_most_recent_first.1 ss2 "S" 100,
    init_history_descending_most_recent_first.2 sessU rtOk vs0 ss2
      (.obj []) (.obj []) 5 _ hmem⟩

end MineCompanion
